import Mathlib

/-!
Verification of the artificial-potential-field navigation agent
(class APF_Robot in main.py) against its natural-language specification.

The agent state, force computations and the per-tick update are shallowly
embedded over the real numbers.  The float computation of the source can
produce non-finite (NaN) values when the agent sits exactly on an obstacle
center (division by a zero distance); that outcome is modelled by Option:
a result of none marks a computation that has produced a non-finite value.
The only source of nondeterminism in the source, the uniformly random
escape angle, is modelled as an explicit oracle parameter of the step
function.
-/

noncomputable section

/-- A 2D vector of reals, modelling the numpy 2-arrays of main.py. -/
@[ext]
structure Vec2 where
  x : ℝ
  y : ℝ

instance : Add Vec2 := ⟨fun a b => ⟨a.x + b.x, a.y + b.y⟩⟩

instance : Sub Vec2 := ⟨fun a b => ⟨a.x - b.x, a.y - b.y⟩⟩

instance : SMul ℝ Vec2 := ⟨fun c v => ⟨c * v.x, c * v.y⟩⟩

/-- Euclidean norm, modelling np.linalg.norm on a 2-vector. -/
def Vec2.norm (v : Vec2) : ℝ := Real.sqrt (v.x ^ 2 + v.y ^ 2)

/-- np.clip of a scalar to the interval from lo to hi (for lo not above hi). -/
def clip (v lo hi : ℝ) : ℝ := max lo (min v hi)

/-- The componentwise boundary clamp of main.py lines 100-101:
x is clipped to the interval from -2 to 14 and y to the interval from -6 to 6. -/
def clipVec (v : Vec2) : Vec2 := ⟨clip v.x (-2) 14, clip v.y (-6) 6⟩

/-- Membership in the fixed world bound box. -/
def inBox (v : Vec2) : Prop := -2 ≤ v.x ∧ v.x ≤ 14 ∧ -6 ≤ v.y ∧ v.y ≤ 6

/-- One obstacle tuple (ox, oy, r) of main.py.  The third component r is the
visual radius used only for drawing; the force law uses the shared influence
radius rr of the robot instead. -/
structure Obstacle where
  ox : ℝ
  oy : ℝ
  r : ℝ

/-- The full mutable state of class APF_Robot (main.py lines 7-23). -/
structure APF_Robot where
  pos : Vec2
  goal : Vec2
  obstacles : List Obstacle
  k_att : ℝ
  k_rep : ℝ
  rr : ℝ
  step_size : ℝ
  enable_escape : Bool
  path : List Vec2
  is_reached : Bool
  stuck_counter : ℕ
  escape_timer : ℕ
  escape_force : Vec2

/-- The constructor of main.py lines 7-23.  It performs no validation of any
kind: every input is accepted, the fields are stored, the path starts with the
initial position, and the state-machine variables start at zero.  (The Python
defaults are k_att=2.0, k_rep=80.0, rr=3.0, step_size=0.1,
enable_escape=False; arguments are passed explicitly here.) -/
def APF_Robot.init (start goal : Vec2) (obstacles : List Obstacle)
    (k_att k_rep rr step_size : ℝ) (enable_escape : Bool) : APF_Robot :=
  { pos := start
    goal := goal
    obstacles := obstacles
    k_att := k_att
    k_rep := k_rep
    rr := rr
    step_size := step_size
    enable_escape := enable_escape
    path := [start]
    is_reached := false
    stuck_counter := 0
    escape_timer := 0
    escape_force := ⟨0, 0⟩ }

/-- One loop iteration of calculate_repulsive_force (main.py lines 28-36),
folded over the accumulator.  When the distance to the obstacle center is
zero (and within the influence radius), the float source divides by zero and
the accumulated force becomes non-finite (NaN); that outcome is modelled by
none, and none is absorbing for the rest of the loop just as NaN is. -/
def repContrib (s : APF_Robot) (acc : Option Vec2) (ob : Obstacle) : Option Vec2 :=
  match acc with
  | none => none
  | some f =>
    if (s.pos - ⟨ob.ox, ob.oy⟩).norm ≤ s.rr then
      if (s.pos - ⟨ob.ox, ob.oy⟩).norm = 0 then none
      else
        some (f +
          (s.k_rep * (1 / (s.pos - ⟨ob.ox, ob.oy⟩).norm - 1 / s.rr) *
              (1 / (s.pos - ⟨ob.ox, ob.oy⟩).norm ^ 2)) •
            ((1 / (s.pos - ⟨ob.ox, ob.oy⟩).norm) • (s.pos - ⟨ob.ox, ob.oy⟩)))
    else some f

/-- calculate_repulsive_force of main.py lines 25-37: superposition of the
contributions of all obstacles within the influence radius, starting from the
zero vector.  A result of none marks the non-finite (NaN) outcome of the
degenerate zero-distance case. -/
def calculate_repulsive_force (s : APF_Robot) : Option Vec2 :=
  s.obstacles.foldl (repContrib s) (some ⟨0, 0⟩)

/-- calculate_attractive_force of main.py lines 39-41. -/
def calculate_attractive_force (s : APF_Robot) : Vec2 :=
  (-s.k_att) • (s.pos - s.goal)

/-- The escape force built from a drawn angle (main.py lines 79-83):
a unit direction from the angle, scaled by 150. -/
def escVec (a : ℝ) : Vec2 := (150 : ℝ) • ⟨Real.cos a, Real.sin a⟩

/-- The stuck-counter update of main.py lines 67-70: increment when the total
force is small while the goal is still far, otherwise reset to 0. -/
def stuckUpdate (s : APF_Robot) (f_total : Vec2) : ℕ :=
  if f_total.norm < 10 ∧ (s.pos - s.goal).norm > 1 then s.stuck_counter + 1 else 0

/-- The outcome of the mode branch of step: the total force together with the
updated state-machine fields. -/
structure Phase where
  f_total : Vec2
  stuck : ℕ
  timer : ℕ
  ef : Vec2

/-- The normal-navigation branch of step (main.py lines 59-86).  With escape
enabled, the stuck counter is updated and, when it passes 10, the escape mode
is entered for 60 ticks with a fresh random escape force that immediately
replaces the attractive pull on this very tick. -/
def normalPhase (a : ℝ) (s : APF_Robot) (f_rep : Vec2) : Phase :=
  if s.enable_escape then
    if stuckUpdate s (calculate_attractive_force s + f_rep) > 10 then
      ⟨escVec a + f_rep, 0, 60, escVec a⟩
    else
      ⟨calculate_attractive_force s + f_rep,
        stuckUpdate s (calculate_attractive_force s + f_rep),
        s.escape_timer, s.escape_force⟩
  else
    ⟨calculate_attractive_force s + f_rep, s.stuck_counter, s.escape_timer, s.escape_force⟩

/-- The movement update of main.py lines 89-97, before the boundary clamp.
The boost factor 1.5 applies exactly when the escape timer is still positive
after the mode branch (that is, after the decrement or after the trigger
assignment). -/
def movePos (s : APF_Robot) (ph : Phase) : Vec2 :=
  if ph.f_total.norm > 0 then
    s.pos + ((if ph.timer > 0 then s.step_size * 1.5 else s.step_size) / ph.f_total.norm) • ph.f_total
  else s.pos

/-- The tail of step (main.py lines 88-107): move, clamp into the world box,
append the clamped position to the path, and set the reached flag when the
clamped position is within 0.2 of the goal. -/
def applyPhase (s : APF_Robot) (ph : Phase) : APF_Robot :=
  { s with
    pos := clipVec (movePos s ph)
    path := s.path ++ [clipVec (movePos s ph)]
    is_reached := if (clipVec (movePos s ph) - s.goal).norm < 0.2 then true else s.is_reached
    stuck_counter := ph.stuck
    escape_timer := ph.timer
    escape_force := ph.ef }

/-- One call of step (main.py lines 43-107).  The oracle a is the uniformly
random angle drawn on a trigger tick; it is unused on all other ticks.
A reached agent returns unchanged.  Otherwise the repulsive force is
computed; in escape mode (positive timer) the total force keeps the stored
escape force plus repulsion and the timer is decremented, else the normal
branch runs; finally the movement, clamp, path append and goal check apply.
A none result marks the non-finite (NaN) outcome of a degenerate repulsion. -/
def step (a : ℝ) (s : APF_Robot) : Option APF_Robot :=
  if s.is_reached then some s
  else
    Option.map
      (fun f_rep =>
        applyPhase s
          (if s.escape_timer > 0 then
            ⟨s.escape_force + f_rep, s.stuck_counter, s.escape_timer - 1, s.escape_force⟩
          else normalPhase a s f_rep))
      (calculate_repulsive_force s)

/-- n consecutive calls of step, fed by the angle oracle. -/
def stepN (angles : ℕ → ℝ) : ℕ → APF_Robot → Option APF_Robot
  | 0, s => some s
  | n + 1, s => (stepN angles n s).bind (step (angles n))

/-- Modelled from the spec: one accumulation of the repulsive superposition
sum exactly as the specification words it, counting an obstacle exactly when
its center-to-agent distance d satisfies 0 < d and d not above the influence
radius. -/
def specContrib (s : APF_Robot) (f : Vec2) (ob : Obstacle) : Vec2 :=
  if 0 < (s.pos - ⟨ob.ox, ob.oy⟩).norm ∧ (s.pos - ⟨ob.ox, ob.oy⟩).norm ≤ s.rr then
    f +
      (s.k_rep * (1 / (s.pos - ⟨ob.ox, ob.oy⟩).norm - 1 / s.rr) *
          (1 / (s.pos - ⟨ob.ox, ob.oy⟩).norm ^ 2)) •
        ((1 / (s.pos - ⟨ob.ox, ob.oy⟩).norm) • (s.pos - ⟨ob.ox, ob.oy⟩))
  else f

/-- Modelled from the spec: the repulsive superposition sum that the
specification describes, over exactly the obstacles with 0 < d and d within
the influence radius. -/
def specRepulsiveSum (s : APF_Robot) : Vec2 :=
  s.obstacles.foldl (specContrib s) ⟨0, 0⟩

/-- An agent sitting exactly on the center of an in-range obstacle. -/
def atCenterState : APF_Robot :=
  { pos := ⟨0, 0⟩, goal := ⟨5, 0⟩, obstacles := [⟨0, 0, 1⟩], k_att := 2, k_rep := 80,
    rr := 1, step_size := 0.1, enable_escape := false, path := [⟨0, 0⟩],
    is_reached := false, stuck_counter := 0, escape_timer := 0, escape_force := ⟨0, 0⟩ }

/-- An agent on its last escape tick: the timer is 1 at the start of the tick,
the stored escape force is the unit vector along x, and no obstacle exists. -/
def lastEscapeState : APF_Robot :=
  { pos := ⟨0, 0⟩, goal := ⟨5, 0⟩, obstacles := [], k_att := 2, k_rep := 80,
    rr := 3, step_size := 0.1, enable_escape := false, path := [⟨0, 0⟩],
    is_reached := false, stuck_counter := 0, escape_timer := 1, escape_force := ⟨1, 0⟩ }

/-- An agent in escape mode with two ticks remaining. -/
def midEscapeState : APF_Robot :=
  { pos := ⟨0, 0⟩, goal := ⟨5, 0⟩, obstacles := [], k_att := 2, k_rep := 80,
    rr := 3, step_size := 0.1, enable_escape := false, path := [⟨0, 0⟩],
    is_reached := false, stuck_counter := 0, escape_timer := 2, escape_force := ⟨1, 0⟩ }

/-- A normal-mode agent with escape enabled whose stuck counter already sits
at 10, so that the next stagnating tick fires the deadlock trigger. -/
def nearTriggerState : APF_Robot :=
  { pos := ⟨0, 0⟩, goal := ⟨3, 0⟩, obstacles := [], k_att := 2, k_rep := 80,
    rr := 3, step_size := 0.1, enable_escape := true, path := [⟨0, 0⟩],
    is_reached := false, stuck_counter := 10, escape_timer := 0, escape_force := ⟨0, 0⟩ }

/-- A normal-mode agent with escape enabled, stuck counter 10, goal two units
away, and no obstacle within the influence radius: every condition of the
pure-attractive movement property holds at the start of this tick, yet the
deadlock trigger fires on it. -/
def triggerFarState : APF_Robot :=
  { pos := ⟨0, 0⟩, goal := ⟨2, 0⟩, obstacles := [], k_att := 2, k_rep := 80,
    rr := 1, step_size := 0.1, enable_escape := true, path := [⟨0, 0⟩],
    is_reached := false, stuck_counter := 10, escape_timer := 0, escape_force := ⟨0, 0⟩ }

/-- A plain normal-mode agent far from its goal with no obstacles. -/
def plainState : APF_Robot :=
  APF_Robot.init ⟨0, 0⟩ ⟨1, 0⟩ [] 2 80 3 0.1 false

/-- An agent whose position coincides with the center of its single in-range
obstacle (a second, distant obstacle follows it in the list). -/
def degenerateSumState : APF_Robot :=
  { pos := ⟨1, 1⟩, goal := ⟨5, 0⟩, obstacles := [⟨1, 1, 1⟩], k_att := 2, k_rep := 80,
    rr := 2, step_size := 0.1, enable_escape := false, path := [⟨1, 1⟩],
    is_reached := false, stuck_counter := 0, escape_timer := 0, escape_force := ⟨0, 0⟩ }

/-- An agent with one obstacle at distance 5, outside its influence radius 1. -/
def farObstacleState : APF_Robot :=
  { pos := ⟨0, 0⟩, goal := ⟨6, 0⟩, obstacles := [⟨3, 4, 1⟩], k_att := 2, k_rep := 80,
    rr := 1, step_size := 0.1, enable_escape := false, path := [⟨0, 0⟩],
    is_reached := false, stuck_counter := 0, escape_timer := 0, escape_force := ⟨0, 0⟩ }

/-- An agent that has already reached its goal. -/
def reachedState : APF_Robot :=
  { pos := ⟨5, 0⟩, goal := ⟨5, 0⟩, obstacles := [⟨1, 1, 1⟩], k_att := 2, k_rep := 80,
    rr := 3, step_size := 0.1, enable_escape := true, path := [⟨0, 0⟩, ⟨5, 0⟩],
    is_reached := true, stuck_counter := 3, escape_timer := 0, escape_force := ⟨0, 0⟩ }

/-- The end-to-end trap scenario of the specification: start (0,0), goal
(12,0), the three trap obstacles, k_att left at its default 2.0, k_rep 120,
rr 2.2, step size left at its default 0.1, and escape disabled. -/
def trapAgent : APF_Robot :=
  APF_Robot.init ⟨0, 0⟩ ⟨12, 0⟩ [⟨6, 1.8, 1.5⟩, ⟨6, -1.8, 1.5⟩, ⟨7.5, 0, 1.8⟩]
    2 120 2.2 0.1 false

/-- An agent whose goal (20,0) lies at distance at least 6 from every point
of the world bound box. -/
def farGoalAgent : APF_Robot :=
  APF_Robot.init ⟨0, 0⟩ ⟨20, 0⟩ [] 2 80 3 0.1 false

end

@[simp]
theorem Vec2.add_x (a b : Vec2) : (a + b).x = a.x + b.x := rfl

@[simp]
theorem Vec2.add_y (a b : Vec2) : (a + b).y = a.y + b.y := rfl

@[simp]
theorem Vec2.sub_x (a b : Vec2) : (a - b).x = a.x - b.x := rfl

@[simp]
theorem Vec2.sub_y (a b : Vec2) : (a - b).y = a.y - b.y := rfl

@[simp]
theorem Vec2.smul_x (c : ℝ) (v : Vec2) : (c • v).x = c * v.x := rfl

@[simp]
theorem Vec2.smul_y (c : ℝ) (v : Vec2) : (c • v).y = c * v.y := rfl

@[simp]
theorem Vec2.add_zero' (v : Vec2) : v + ⟨0, 0⟩ = v := by ext <;> simp

theorem Vec2.norm_nonneg (v : Vec2) : 0 ≤ v.norm := Real.sqrt_nonneg _

@[simp]
theorem Vec2.norm_zero' : (⟨0, 0⟩ : Vec2).norm = 0 := by
  simp [Vec2.norm]

theorem Vec2.norm_pos (v : Vec2) (h : v ≠ ⟨0, 0⟩) : 0 < v.norm := by
  have hxy : v.x ≠ 0 ∨ v.y ≠ 0 := by
    by_contra hc
    push_neg at hc
    exact h (by ext <;> simp [hc.1, hc.2])
  have hsum : 0 < v.x ^ 2 + v.y ^ 2 := by
    rcases hxy with hx | hy
    · exact add_pos_of_pos_of_nonneg (pow_two_pos_of_ne_zero hx) (sq_nonneg _)
    · exact add_pos_of_nonneg_of_pos (sq_nonneg _) (pow_two_pos_of_ne_zero hy)
  exact Real.sqrt_pos.mpr hsum

theorem Vec2.norm_smul (c : ℝ) (v : Vec2) : (c • v).norm = |c| * v.norm := by
  have h : (c * v.x) ^ 2 + (c * v.y) ^ 2 = c ^ 2 * (v.x ^ 2 + v.y ^ 2) := by ring
  simp only [Vec2.norm, Vec2.smul_x, Vec2.smul_y, h]
  rw [Real.sqrt_mul (sq_nonneg c), Real.sqrt_sq_eq_abs]

theorem sqrt_of_sq (a b : ℝ) (hb : 0 ≤ b) (h : b ^ 2 = a) : Real.sqrt a = b := by
  rw [← h, Real.sqrt_sq hb]

theorem clip_id (v lo hi : ℝ) (h1 : lo ≤ v) (h2 : v ≤ hi) : clip v lo hi = v := by
  rw [clip, min_eq_left h2, max_eq_right h1]

theorem clipVec_of_inBox (v : Vec2) (h : inBox v) : clipVec v = v := by
  obtain ⟨h1, h2, h3, h4⟩ := h
  simp [clipVec, clip_id _ _ _ h1 h2, clip_id _ _ _ h3 h4]

theorem inBox_clipVec (v : Vec2) : inBox (clipVec v) := by
  refine ⟨le_max_left _ _, max_le (by norm_num) (min_le_right _ _),
    le_max_left _ _, max_le (by norm_num) (min_le_right _ _)⟩

@[simp]
theorem applyPhase_pos (s : APF_Robot) (ph : Phase) :
    (applyPhase s ph).pos = clipVec (movePos s ph) := rfl

@[simp]
theorem applyPhase_path (s : APF_Robot) (ph : Phase) :
    (applyPhase s ph).path = s.path ++ [clipVec (movePos s ph)] := rfl

@[simp]
theorem applyPhase_stuck (s : APF_Robot) (ph : Phase) :
    (applyPhase s ph).stuck_counter = ph.stuck := rfl

@[simp]
theorem applyPhase_timer (s : APF_Robot) (ph : Phase) :
    (applyPhase s ph).escape_timer = ph.timer := rfl

@[simp]
theorem applyPhase_ef (s : APF_Robot) (ph : Phase) :
    (applyPhase s ph).escape_force = ph.ef := rfl

@[simp]
theorem applyPhase_goal (s : APF_Robot) (ph : Phase) :
    (applyPhase s ph).goal = s.goal := rfl

@[simp]
theorem applyPhase_enable (s : APF_Robot) (ph : Phase) :
    (applyPhase s ph).enable_escape = s.enable_escape := rfl

theorem applyPhase_reached (s : APF_Robot) (ph : Phase) :
    (applyPhase s ph).is_reached =
      if (clipVec (movePos s ph) - s.goal).norm < 0.2 then true else s.is_reached := rfl

theorem step_of_reached (a : ℝ) (s : APF_Robot) (h : s.is_reached = true) :
    step a s = some s := by
  simp [step, h]

theorem step_escape_mode (a : ℝ) (s : APF_Robot) (fr : Vec2)
    (hr : s.is_reached = false) (ht : 0 < s.escape_timer)
    (hrep : calculate_repulsive_force s = some fr) :
    step a s = some (applyPhase s
      ⟨s.escape_force + fr, s.stuck_counter, s.escape_timer - 1, s.escape_force⟩) := by
  simp [step, hr, hrep, ht]

theorem step_normal_mode (a : ℝ) (s : APF_Robot) (fr : Vec2)
    (hr : s.is_reached = false) (ht : s.escape_timer = 0)
    (hrep : calculate_repulsive_force s = some fr) :
    step a s = some (applyPhase s (normalPhase a s fr)) := by
  simp [step, hr, hrep, ht]

theorem normalPhase_of_noEscape (a : ℝ) (s : APF_Robot) (fr : Vec2)
    (h : s.enable_escape = false) :
    normalPhase a s fr =
      ⟨calculate_attractive_force s + fr, s.stuck_counter, s.escape_timer, s.escape_force⟩ := by
  simp [normalPhase, h]

theorem normalPhase_of_trigger (a : ℝ) (s : APF_Robot) (fr : Vec2)
    (hen : s.enable_escape = true)
    (h10 : stuckUpdate s (calculate_attractive_force s + fr) > 10) :
    normalPhase a s fr = ⟨escVec a + fr, 0, 60, escVec a⟩ := by
  simp [normalPhase, hen, h10]

theorem normalPhase_of_noTrigger (a : ℝ) (s : APF_Robot) (fr : Vec2)
    (hen : s.enable_escape = true)
    (h10 : ¬ stuckUpdate s (calculate_attractive_force s + fr) > 10) :
    normalPhase a s fr =
      ⟨calculate_attractive_force s + fr,
        stuckUpdate s (calculate_attractive_force s + fr),
        s.escape_timer, s.escape_force⟩ := by
  simp [normalPhase, hen, h10]

theorem stuckUpdate_of_inc (s : APF_Robot) (ft : Vec2)
    (h : ft.norm < 10 ∧ (s.pos - s.goal).norm > 1) :
    stuckUpdate s ft = s.stuck_counter + 1 := if_pos h

theorem stuckUpdate_of_calm (s : APF_Robot) (ft : Vec2)
    (h : ¬ (ft.norm < 10 ∧ (s.pos - s.goal).norm > 1)) :
    stuckUpdate s ft = 0 := if_neg h

theorem rep_fold_far (s : APF_Robot) (l : List Obstacle) (acc : Vec2)
    (h : ∀ ob ∈ l, s.rr < (s.pos - ⟨ob.ox, ob.oy⟩).norm) :
    List.foldl (repContrib s) (some acc) l = some acc := by
  induction l generalizing acc with
  | nil => rfl
  | cons ob t ih =>
    have hob := h ob (List.mem_cons_self ob t)
    have hcond : ¬ (s.pos - ⟨ob.ox, ob.oy⟩).norm ≤ s.rr := not_le.mpr hob
    simp only [List.foldl_cons, repContrib, if_neg hcond]
    exact ih acc (fun o ho => h o (List.mem_cons_of_mem ob ho))

theorem rep_fold_spec (s : APF_Robot) (l : List Obstacle) (acc : Vec2)
    (h : ∀ ob ∈ l, (s.pos - ⟨ob.ox, ob.oy⟩).norm ≠ 0) :
    List.foldl (repContrib s) (some acc) l = some (List.foldl (specContrib s) acc l) := by
  induction l generalizing acc with
  | nil => rfl
  | cons ob t ih =>
    have hob := h ob (List.mem_cons_self ob t)
    have htail : ∀ o ∈ t, (s.pos - ⟨o.ox, o.oy⟩).norm ≠ 0 :=
      fun o ho => h o (List.mem_cons_of_mem ob ho)
    by_cases hle : (s.pos - ⟨ob.ox, ob.oy⟩).norm ≤ s.rr
    · have hposd : 0 < (s.pos - ⟨ob.ox, ob.oy⟩).norm :=
        lt_of_le_of_ne (Vec2.norm_nonneg _) (Ne.symm hob)
      simp only [List.foldl_cons, repContrib, if_pos hle, if_neg hob,
        specContrib, if_pos (And.intro hposd hle)]
      exact ih _ htail
    · have hnot : ¬ (0 < (s.pos - ⟨ob.ox, ob.oy⟩).norm ∧
          (s.pos - ⟨ob.ox, ob.oy⟩).norm ≤ s.rr) := fun hc => hle hc.2
      simp only [List.foldl_cons, repContrib, if_neg hle, specContrib, if_neg hnot]
      exact ih _ htail

theorem step_shape (a : ℝ) (s s' : APF_Robot) (hr : s.is_reached = false)
    (h : step a s = some s') : ∃ ph, s' = applyPhase s ph := by
  cases hrep : calculate_repulsive_force s with
  | none => simp [step, hr, hrep] at h
  | some fr =>
    by_cases ht : 0 < s.escape_timer
    · rw [step_escape_mode a s fr hr ht hrep] at h
      exact ⟨_, (Option.some_inj.mp h).symm⟩
    · have ht0 : s.escape_timer = 0 := by omega
      rw [step_normal_mode a s fr hr ht0 hrep] at h
      exact ⟨_, (Option.some_inj.mp h).symm⟩

theorem step_preserves_stuck_noEscape (a : ℝ) (s s' : APF_Robot)
    (hE : s.enable_escape = false) (h : step a s = some s') :
    s'.enable_escape = false ∧ s'.stuck_counter = s.stuck_counter := by
  by_cases hr : s.is_reached = true
  · rw [step_of_reached a s hr] at h
    cases h
    exact ⟨hE, rfl⟩
  · have hr' : s.is_reached = false := by simpa using hr
    cases hrep : calculate_repulsive_force s with
    | none => simp [step, hr', hrep] at h
    | some fr =>
      by_cases ht : 0 < s.escape_timer
      · rw [step_escape_mode a s fr hr' ht hrep] at h
        cases h
        exact ⟨hE, rfl⟩
      · have ht0 : s.escape_timer = 0 := by omega
        rw [step_normal_mode a s fr hr' ht0 hrep] at h
        cases h
        rw [normalPhase_of_noEscape a s fr hE]
        exact ⟨hE, rfl⟩

theorem stepN_stuck_noEscape (angles : ℕ → ℝ) (s0 : APF_Robot)
    (hE : s0.enable_escape = false) :
    ∀ n s', stepN angles n s0 = some s' →
      s'.enable_escape = false ∧ s'.stuck_counter = s0.stuck_counter := by
  intro n
  induction n with
  | zero =>
    intro s' h
    cases h
    exact ⟨hE, rfl⟩
  | succ n ih =>
    intro s' h
    rw [stepN] at h
    cases hm : stepN angles n s0 with
    | none => rw [hm] at h; simp at h
    | some sm =>
      rw [hm] at h
      simp only [Option.some_bind] at h
      obtain ⟨hEm, hstuckm⟩ := ih sm hm
      obtain ⟨hE2, hstuck2⟩ := step_preserves_stuck_noEscape (angles n) sm s' hEm h
      exact ⟨hE2, hstuck2.trans hstuckm⟩

/-- C1: the claim states that calculate_repulsive_force guards the d = 0 case
instead of dividing by zero.  The code has no such guard: with the agent
exactly on an in-range obstacle center the loop divides by the zero distance
and the accumulated force becomes non-finite (NaN, modelled as none). -/
theorem C1_degenerate_distance_unguarded :
    calculate_repulsive_force atCenterState = none := by
  norm_num [calculate_repulsive_force, atCenterState, repContrib, Vec2.norm]

/-- C2 counterexample: construction with every gain, radius and step size
non-positive and with start exactly equal to goal does not fail: it returns a
fully populated, usable agent (the first tick even executes). -/
theorem C2_counterexample :
    (APF_Robot.init ⟨0, 0⟩ ⟨0, 0⟩ [] (-1) (-1) (-1) (-1) false).is_reached = false ∧
    (APF_Robot.init ⟨0, 0⟩ ⟨0, 0⟩ [] (-1) (-1) (-1) (-1) false).k_att = -1 ∧
    (APF_Robot.init ⟨0, 0⟩ ⟨0, 0⟩ [] (-1) (-1) (-1) (-1) false).path = [⟨0, 0⟩] ∧
    step 0 (APF_Robot.init ⟨0, 0⟩ ⟨0, 0⟩ [] (-1) (-1) (-1) (-1) false) ≠ none := by
  refine ⟨rfl, rfl, rfl, ?_⟩
  rw [step_normal_mode 0 (APF_Robot.init ⟨0, 0⟩ ⟨0, 0⟩ [] (-1) (-1) (-1) (-1) false)
    ⟨0, 0⟩ rfl rfl rfl]
  simp

/-- C2 amended: the constructor never fails and performs no validation at
all: for every input, including non-positive gains, radii and step sizes and
a start equal to the goal, it returns a usable agent that stores the inputs
unchanged, with the path seeded with the start position and all state-machine
fields zeroed. -/
theorem C2_constructor_never_fails (start goal : Vec2) (obstacles : List Obstacle)
    (k_att k_rep rr step_size : ℝ) (enable_escape : Bool) :
    (APF_Robot.init start goal obstacles k_att k_rep rr step_size enable_escape).pos = start ∧
    (APF_Robot.init start goal obstacles k_att k_rep rr step_size enable_escape).goal = goal ∧
    (APF_Robot.init start goal obstacles k_att k_rep rr step_size enable_escape).obstacles = obstacles ∧
    (APF_Robot.init start goal obstacles k_att k_rep rr step_size enable_escape).k_att = k_att ∧
    (APF_Robot.init start goal obstacles k_att k_rep rr step_size enable_escape).k_rep = k_rep ∧
    (APF_Robot.init start goal obstacles k_att k_rep rr step_size enable_escape).rr = rr ∧
    (APF_Robot.init start goal obstacles k_att k_rep rr step_size enable_escape).step_size = step_size ∧
    (APF_Robot.init start goal obstacles k_att k_rep rr step_size enable_escape).enable_escape = enable_escape ∧
    (APF_Robot.init start goal obstacles k_att k_rep rr step_size enable_escape).path = [start] ∧
    (APF_Robot.init start goal obstacles k_att k_rep rr step_size enable_escape).is_reached = false ∧
    (APF_Robot.init start goal obstacles k_att k_rep rr step_size enable_escape).stuck_counter = 0 ∧
    (APF_Robot.init start goal obstacles k_att k_rep rr step_size enable_escape).escape_timer = 0 :=
  ⟨rfl, rfl, rfl, rfl, rfl, rfl, rfl, rfl, rfl, rfl, rfl, rfl⟩

/-- C3 counterexample: in the trap scenario with escape disabled, the stuck
counter does not exceed the limit at any of the first 800 ticks, because the
deadlock detection is gated on the escape flag and the counter stays 0. -/
theorem C3_counterexample :
    ¬ ∃ n, n ≤ 800 ∧ ∃ s', stepN (fun _ => 0) n trapAgent = some s' ∧
      10 < s'.stuck_counter := by
  rintro ⟨n, -, s', hrun, hgt⟩
  have h := (stepN_stuck_noEscape (fun _ => 0) trapAgent rfl n s' hrun).2
  have h0 : trapAgent.stuck_counter = 0 := rfl
  omega

/-- C3 amended: in the trap scenario with escape disabled the stuck counter
never exceeds the configured limit: it remains exactly 0 at every tick, since
the deadlock detection of step only runs when escape is enabled. -/
theorem C3_trap_stuck_stays_zero (angles : ℕ → ℝ) (n : ℕ) (s' : APF_Robot)
    (h : stepN angles n trapAgent = some s') : s'.stuck_counter = 0 :=
  ((stepN_stuck_noEscape angles trapAgent rfl n s' h).2).trans rfl

theorem C3_trap_stuck_stays_zero_witness :
    stepN (fun _ => 0) 0 trapAgent = some trapAgent ∧ trapAgent.stuck_counter = 0 :=
  ⟨rfl, C3_trap_stuck_stays_zero (fun _ => 0) 0 trapAgent rfl⟩

/-- C8: once the reached flag is true, any number of further step calls
returns the state entirely unchanged: position, path and every other field
are preserved and the flag stays true. -/
theorem C8_reached_noop (s : APF_Robot) (h : s.is_reached = true)
    (angles : ℕ → ℝ) (n : ℕ) : stepN angles n s = some s := by
  induction n with
  | zero => rfl
  | succ n ih =>
    rw [stepN, ih]
    simpa using step_of_reached (angles n) s h

theorem C8_reached_noop_witness :
    reachedState.is_reached = true ∧
    stepN (fun _ => 0) 5 reachedState = some reachedState :=
  ⟨rfl, C8_reached_noop reachedState rfl (fun _ => 0) 5⟩

/-- C6 counterexample: with the agent exactly on the center of an in-range
obstacle, calculate_repulsive_force is a non-finite (NaN) value, not the
superposition sum over the obstacles with 0 < d and d within the radius
(that sum skips the coincident obstacle and is the zero vector here). -/
theorem C6_counterexample :
    calculate_repulsive_force degenerateSumState = none ∧
    specRepulsiveSum degenerateSumState = ⟨0, 0⟩ ∧
    calculate_repulsive_force degenerateSumState ≠
      some (specRepulsiveSum degenerateSumState) := by
  have h1 : calculate_repulsive_force degenerateSumState = none := by
    norm_num [calculate_repulsive_force, degenerateSumState, repContrib, Vec2.norm]
  have h2 : specRepulsiveSum degenerateSumState = ⟨0, 0⟩ := by
    norm_num [specRepulsiveSum, degenerateSumState, specContrib, Vec2.norm]
  refine ⟨h1, h2, ?_⟩
  rw [h1]
  simp

/-- C6 amended: for every agent state in which no obstacle center coincides
with the agent position, calculate_repulsive_force equals the superposition
sum, over exactly the obstacles whose distance d satisfies 0 < d and d within
rr, of the vector k_rep * (1/d - 1/rr) * (1/d^2) * (pos - center)/d; and
whenever every obstacle lies strictly outside rr the result is the zero
vector. -/
theorem C6_repulsion_superposition (s : APF_Robot) :
    ((∀ ob ∈ s.obstacles, (s.pos - ⟨ob.ox, ob.oy⟩).norm ≠ 0) →
      calculate_repulsive_force s = some (specRepulsiveSum s)) ∧
    ((∀ ob ∈ s.obstacles, s.rr < (s.pos - ⟨ob.ox, ob.oy⟩).norm) →
      calculate_repulsive_force s = some ⟨0, 0⟩) :=
  ⟨fun h => rep_fold_spec s s.obstacles ⟨0, 0⟩ h,
   fun h => rep_fold_far s s.obstacles ⟨0, 0⟩ h⟩

theorem C6_repulsion_superposition_witness :
    (∀ ob ∈ farObstacleState.obstacles,
      (farObstacleState.pos - ⟨ob.ox, ob.oy⟩).norm ≠ 0) ∧
    (∀ ob ∈ farObstacleState.obstacles,
      farObstacleState.rr < (farObstacleState.pos - ⟨ob.ox, ob.oy⟩).norm) ∧
    calculate_repulsive_force farObstacleState = some (specRepulsiveSum farObstacleState) ∧
    calculate_repulsive_force farObstacleState = some ⟨0, 0⟩ := by
  have hn : ((⟨0, 0⟩ : Vec2) - (⟨3, 4⟩ : Vec2)).norm = 5 := by
    rw [Vec2.norm]
    exact sqrt_of_sq _ 5 (by norm_num) (by norm_num)
  have h1 : ∀ ob ∈ farObstacleState.obstacles,
      (farObstacleState.pos - ⟨ob.ox, ob.oy⟩).norm ≠ 0 := by
    intro ob hob
    rw [show farObstacleState.obstacles = [⟨3, 4, 1⟩] from rfl] at hob
    rw [List.mem_singleton] at hob
    subst hob
    rw [show farObstacleState.pos = ⟨0, 0⟩ from rfl]
    rw [hn]
    norm_num
  have h2 : ∀ ob ∈ farObstacleState.obstacles,
      farObstacleState.rr < (farObstacleState.pos - ⟨ob.ox, ob.oy⟩).norm := by
    intro ob hob
    rw [show farObstacleState.obstacles = [⟨3, 4, 1⟩] from rfl] at hob
    rw [List.mem_singleton] at hob
    subst hob
    rw [show farObstacleState.pos = ⟨0, 0⟩ from rfl, hn]
    norm_num [farObstacleState]
  exact ⟨h1, h2, (C6_repulsion_superposition farObstacleState).1 h1,
    (C6_repulsion_superposition farObstacleState).2 h2⟩

theorem step_keeps_unreached (a : ℝ) (s s' : APF_Robot)
    (hg : ∀ p : Vec2, inBox p → 0.2 ≤ (p - s.goal).norm)
    (hr : s.is_reached = false) (h : step a s = some s') :
    s'.is_reached = false ∧ s'.goal = s.goal := by
  obtain ⟨ph, rfl⟩ := step_shape a s s' hr h
  refine ⟨?_, rfl⟩
  rw [applyPhase_reached]
  have hb := hg _ (inBox_clipVec (movePos s ph))
  rw [if_neg (not_lt.mpr hb), hr]

theorem stepN_keeps_unreached (angles : ℕ → ℝ) (s0 : APF_Robot)
    (hg : ∀ p : Vec2, inBox p → 0.2 ≤ (p - s0.goal).norm)
    (hr0 : s0.is_reached = false) :
    ∀ n s', stepN angles n s0 = some s' →
      s'.is_reached = false ∧ s'.goal = s0.goal := by
  intro n
  induction n with
  | zero =>
    intro s' h
    cases h
    exact ⟨hr0, rfl⟩
  | succ n ih =>
    intro s' h
    rw [stepN] at h
    cases hm : stepN angles n s0 with
    | none => rw [hm] at h; simp at h
    | some sm =>
      rw [hm] at h
      simp only [Option.some_bind] at h
      obtain ⟨hrm, hgm⟩ := ih sm hm
      have hgsm : ∀ p : Vec2, inBox p → 0.2 ≤ (p - sm.goal).norm := by
        rw [hgm]; exact hg
      obtain ⟨hr2, hg2⟩ := step_keeps_unreached (angles n) sm s' hgsm hrm h
      exact ⟨hr2, hg2.trans hgm⟩

/-- C10: when the goal lies at Euclidean distance at least the goal radius
0.2 from every point of the world bound box, the reached flag never becomes
true, however many ticks are run: the position is clamped into the box before
the goal check, so the threshold can never be crossed, even though the
constructor accepts such a goal. -/
theorem C10_far_goal_never_reached (start goal : Vec2) (obs : List Obstacle)
    (ka kr rr ss : ℝ) (esc : Bool)
    (hg : ∀ p : Vec2, inBox p → 0.2 ≤ (p - goal).norm)
    (angles : ℕ → ℝ) (n : ℕ) (s' : APF_Robot)
    (h : stepN angles n (APF_Robot.init start goal obs ka kr rr ss esc) = some s') :
    s'.is_reached = false :=
  (stepN_keeps_unreached angles (APF_Robot.init start goal obs ka kr rr ss esc)
    hg rfl n s' h).1

theorem C10_far_goal_never_reached_witness :
    (∀ p : Vec2, inBox p → 0.2 ≤ (p - (⟨20, 0⟩ : Vec2)).norm) ∧
    ∃ s', stepN (fun _ => 0) 1 farGoalAgent = some s' ∧ s'.is_reached = false := by
  have habs : ∀ v : Vec2, |v.x| ≤ v.norm := by
    intro v
    rw [Vec2.norm, ← Real.sqrt_sq_eq_abs]
    exact Real.sqrt_le_sqrt (by nlinarith [sq_nonneg v.y])
  have hg20 : ∀ p : Vec2, inBox p → 0.2 ≤ (p - (⟨20, 0⟩ : Vec2)).norm := by
    intro p hp
    have hx : p.x ≤ 14 := hp.2.1
    have h6 : (6 : ℝ) ≤ |p.x - 20| := by
      rw [abs_sub_comm, abs_of_nonneg (by linarith)]
      linarith
    have h7 : |(p - (⟨20, 0⟩ : Vec2)).x| ≤ (p - (⟨20, 0⟩ : Vec2)).norm := habs _
    have h8 : (p - (⟨20, 0⟩ : Vec2)).x = p.x - 20 := rfl
    rw [h8] at h7
    linarith
  have h1 : stepN (fun _ => 0) 1 farGoalAgent =
      some (applyPhase farGoalAgent (normalPhase 0 farGoalAgent ⟨0, 0⟩)) := by
    simp only [stepN, Option.some_bind]
    exact step_normal_mode 0 farGoalAgent ⟨0, 0⟩ rfl rfl rfl
  exact ⟨hg20, applyPhase farGoalAgent (normalPhase 0 farGoalAgent ⟨0, 0⟩), h1,
    C10_far_goal_never_reached ⟨0, 0⟩ ⟨20, 0⟩ [] 2 80 3 0.1 false hg20
      (fun _ => 0) 1 _ h1⟩

theorem step_path_mono (a : ℝ) (t t' : APF_Robot) (h : step a t = some t') :
    ∃ d, t'.path = t.path ++ d := by
  by_cases hr : t.is_reached = true
  · rw [step_of_reached a t hr] at h
    cases h
    exact ⟨[], by simp⟩
  · have hr' : t.is_reached = false := by simpa using hr
    obtain ⟨ph, rfl⟩ := step_shape a t t' hr' h
    exact ⟨[clipVec (movePos t ph)], rfl⟩

theorem step_path_unreached (a : ℝ) (t t' : APF_Robot)
    (hr : t.is_reached = false) (h : step a t = some t') :
    ∃ pt, t'.path = t.path ++ [pt] ∧ inBox pt := by
  obtain ⟨ph, rfl⟩ := step_shape a t t' hr h
  exact ⟨clipVec (movePos t ph), rfl, inBox_clipVec _⟩

theorem stepN_path (angles : ℕ → ℝ) (s0 : APF_Robot) :
    ∀ n s', stepN angles n s0 = some s' →
      (∀ k, k < n → ∀ sk, stepN angles k s0 = some sk → sk.is_reached = false) →
      ∃ rest, s'.path = s0.path ++ rest ∧ rest.length = n ∧ ∀ p ∈ rest, inBox p := by
  intro n
  induction n with
  | zero =>
    intro s' h _
    cases h
    exact ⟨[], by simp, rfl, by simp⟩
  | succ n ih =>
    intro s' h hpre
    rw [stepN] at h
    cases hm : stepN angles n s0 with
    | none => rw [hm] at h; simp at h
    | some sm =>
      rw [hm] at h
      simp only [Option.some_bind] at h
      obtain ⟨rest, hr1, hr2, hr3⟩ :=
        ih sm hm (fun k hk => hpre k (Nat.lt_succ_of_lt hk))
      have hsm : sm.is_reached = false := hpre n (Nat.lt_succ_self n) sm hm
      obtain ⟨pt, hp1, hp2⟩ := step_path_unreached (angles n) sm s' hsm h
      refine ⟨rest ++ [pt], ?_, ?_, ?_⟩
      · rw [hp1, hr1, List.append_assoc]
      · simp [hr2]
      · intro p hp
        rcases List.mem_append.mp hp with h1 | h1
        · exact hr3 p h1
        · rw [List.mem_singleton] at h1
          subst h1
          exact hp2

/-- C9: for every constructed agent and every N, if the first N ticks all run
while reached is false and the run is defined (no degenerate distance), the
path has length N + 1, starts with the initial position, is the initial
position followed by the appended points in chronological order, every
appended point lies inside the world bound box, and a step never shrinks the
path (it only ever appends). -/
theorem C9_path_invariants (start goal : Vec2) (obs : List Obstacle)
    (ka kr rr ss : ℝ) (esc : Bool) (angles : ℕ → ℝ) (N : ℕ) (s' : APF_Robot)
    (hrun : stepN angles N (APF_Robot.init start goal obs ka kr rr ss esc) = some s')
    (hpre : ∀ k, k < N → ∀ sk,
      stepN angles k (APF_Robot.init start goal obs ka kr rr ss esc) = some sk →
      sk.is_reached = false) :
    s'.path.length = N + 1 ∧
    (∃ rest, s'.path = start :: rest ∧ rest.length = N ∧ ∀ p ∈ rest, inBox p) ∧
    (∀ (t : APF_Robot) (a : ℝ) (t' : APF_Robot), step a t = some t' →
      ∃ d, t'.path = t.path ++ d) := by
  obtain ⟨rest, h1, h2, h3⟩ := stepN_path angles _ N s' hrun hpre
  have hinit : (APF_Robot.init start goal obs ka kr rr ss esc).path = [start] := rfl
  rw [hinit] at h1
  rw [List.singleton_append] at h1
  refine ⟨?_, ⟨rest, h1, h2, h3⟩, fun t a t' ht => step_path_mono a t t' ht⟩
  rw [h1]
  simp [h2]

theorem C9_path_invariants_witness :
    stepN (fun _ => 0) 0 plainState = some plainState ∧
    (plainState.path.length = 0 + 1 ∧
     (∃ rest, plainState.path = (⟨0, 0⟩ : Vec2) :: rest ∧ rest.length = 0 ∧
       ∀ p ∈ rest, inBox p) ∧
     (∀ (t : APF_Robot) (a : ℝ) (t' : APF_Robot), step a t = some t' →
       ∃ d, t'.path = t.path ++ d)) :=
  ⟨rfl, C9_path_invariants ⟨0, 0⟩ ⟨1, 0⟩ [] 2 80 3 0.1 false (fun _ => 0) 0
    plainState rfl (fun k hk => absurd hk (Nat.not_lt_zero k))⟩

/-- C5: on a normal-mode tick with escape enabled, the stuck counter is
incremented exactly when the total force has norm below 10 while the goal is
farther than 1, and reset to 0 otherwise; and when the incremented counter
exceeds the limit 10, the tick enters escape mode: the timer is set to 60
(within the specified range from 45 to 60), the counter is reset to 0, the
escape force is selected from the drawn angle, and the movement of this same
tick already uses escapeForce + f_rep as the total force. -/
theorem C5_deadlock_detection (a : ℝ) (s : APF_Robot) (fr : Vec2)
    (hr : s.is_reached = false) (ht : s.escape_timer = 0)
    (hen : s.enable_escape = true)
    (hrep : calculate_repulsive_force s = some fr) :
    ∃ s', step a s = some s' ∧
      (¬ ((calculate_attractive_force s + fr).norm < 10 ∧ (s.pos - s.goal).norm > 1) →
        s'.stuck_counter = 0 ∧ s'.escape_timer = 0) ∧
      (((calculate_attractive_force s + fr).norm < 10 ∧ (s.pos - s.goal).norm > 1) →
        s.stuck_counter + 1 ≤ 10 →
        s'.stuck_counter = s.stuck_counter + 1 ∧ s'.escape_timer = 0) ∧
      (((calculate_attractive_force s + fr).norm < 10 ∧ (s.pos - s.goal).norm > 1) →
        10 < s.stuck_counter + 1 →
        s'.stuck_counter = 0 ∧ s'.escape_timer = 60 ∧
        45 ≤ s'.escape_timer ∧ s'.escape_timer ≤ 60 ∧
        s'.escape_force = escVec a ∧
        s'.pos = clipVec (if (escVec a + fr).norm > 0 then
            s.pos + ((s.step_size * 1.5) / (escVec a + fr).norm) • (escVec a + fr)
          else s.pos)) := by
  rw [step_normal_mode a s fr hr ht hrep]
  refine ⟨applyPhase s (normalPhase a s fr), rfl, ?_, ?_, ?_⟩
  · intro hn
    have hsu := stuckUpdate_of_calm s _ hn
    rw [normalPhase_of_noTrigger a s fr hen (by rw [hsu]; omega)]
    simp [hsu, ht]
  · intro hinc hle
    have hsu := stuckUpdate_of_inc s _ hinc
    rw [normalPhase_of_noTrigger a s fr hen (by rw [hsu]; omega)]
    simp [hsu, ht]
  · intro hinc hgt
    have hsu := stuckUpdate_of_inc s _ hinc
    rw [normalPhase_of_trigger a s fr hen (by rw [hsu]; omega)]
    refine ⟨rfl, rfl, by norm_num, by norm_num, rfl, ?_⟩
    rw [applyPhase_pos]
    simp [movePos]

theorem C5_deadlock_detection_witness :
    nearTriggerState.is_reached = false ∧
    nearTriggerState.escape_timer = 0 ∧
    nearTriggerState.enable_escape = true ∧
    calculate_repulsive_force nearTriggerState = some ⟨0, 0⟩ ∧
    (∃ s', step 0 nearTriggerState = some s' ∧
      (¬ ((calculate_attractive_force nearTriggerState + ⟨0, 0⟩).norm < 10 ∧
            (nearTriggerState.pos - nearTriggerState.goal).norm > 1) →
        s'.stuck_counter = 0 ∧ s'.escape_timer = 0) ∧
      (((calculate_attractive_force nearTriggerState + ⟨0, 0⟩).norm < 10 ∧
            (nearTriggerState.pos - nearTriggerState.goal).norm > 1) →
        nearTriggerState.stuck_counter + 1 ≤ 10 →
        s'.stuck_counter = nearTriggerState.stuck_counter + 1 ∧ s'.escape_timer = 0) ∧
      (((calculate_attractive_force nearTriggerState + ⟨0, 0⟩).norm < 10 ∧
            (nearTriggerState.pos - nearTriggerState.goal).norm > 1) →
        10 < nearTriggerState.stuck_counter + 1 →
        s'.stuck_counter = 0 ∧ s'.escape_timer = 60 ∧
        45 ≤ s'.escape_timer ∧ s'.escape_timer ≤ 60 ∧
        s'.escape_force = escVec 0 ∧
        s'.pos = clipVec (if (escVec 0 + ⟨0, 0⟩).norm > 0 then
            nearTriggerState.pos +
              ((nearTriggerState.step_size * 1.5) / (escVec 0 + ⟨0, 0⟩).norm) •
                (escVec 0 + ⟨0, 0⟩)
          else nearTriggerState.pos))) :=
  ⟨rfl, rfl, rfl, rfl, C5_deadlock_detection 0 nearTriggerState ⟨0, 0⟩ rfl rfl rfl rfl⟩

theorem normalPhase_no_trigger_shape (a : ℝ) (s : APF_Robot) (fr : Vec2)
    (h : ¬ (s.enable_escape = true ∧
        ((calculate_attractive_force s + fr).norm < 10 ∧ (s.pos - s.goal).norm > 1) ∧
        10 < s.stuck_counter + 1)) :
    (normalPhase a s fr).f_total = calculate_attractive_force s + fr ∧
    (normalPhase a s fr).timer = s.escape_timer := by
  by_cases hen : s.enable_escape = true
  · by_cases hinc : (calculate_attractive_force s + fr).norm < 10 ∧
        (s.pos - s.goal).norm > 1
    · have hsu := stuckUpdate_of_inc s _ hinc
      have hle : ¬ stuckUpdate s (calculate_attractive_force s + fr) > 10 := by
        rw [hsu]
        intro hgt
        exact h ⟨hen, hinc, hgt⟩
      rw [normalPhase_of_noTrigger a s fr hen hle]
      exact ⟨rfl, rfl⟩
    · have hsu := stuckUpdate_of_calm s _ hinc
      have hle : ¬ stuckUpdate s (calculate_attractive_force s + fr) > 10 := by
        rw [hsu]; omega
      rw [normalPhase_of_noTrigger a s fr hen hle]
      exact ⟨rfl, rfl⟩
  · have hen' : s.enable_escape = false := by simpa using hen
    rw [normalPhase_of_noEscape a s fr hen']
    exact ⟨rfl, rfl⟩

/-- C4 amended: on a defined, unreached tick the position update is
unit(f_final) * effectiveStep before clamping (and unchanged before clamping
when f_final is zero), but the boost factor is exactly 1.5 and it applies
precisely when the escape timer is positive after the mode branch: on escape
ticks other than the final one, and also on the trigger tick that enters
escape mode, while the final escape tick and all other normal-mode ticks use
the plain step size. -/
theorem C4_movement_law (a : ℝ) (s : APF_Robot) (fr : Vec2)
    (hr : s.is_reached = false) (hrep : calculate_repulsive_force s = some fr) :
    (0 < s.escape_timer →
      ∃ s', step a s = some s' ∧
        s'.escape_timer = s.escape_timer - 1 ∧
        ((0 < (s.escape_force + fr).norm →
            s'.pos = clipVec (s.pos +
              ((if 1 < s.escape_timer then s.step_size * 1.5 else s.step_size) /
                  (s.escape_force + fr).norm) • (s.escape_force + fr))) ∧
         ((s.escape_force + fr).norm = 0 → s'.pos = clipVec s.pos))) ∧
    (s.escape_timer = 0 →
      ¬ (s.enable_escape = true ∧
          ((calculate_attractive_force s + fr).norm < 10 ∧ (s.pos - s.goal).norm > 1) ∧
          10 < s.stuck_counter + 1) →
      ∃ s', step a s = some s' ∧ s'.escape_timer = 0 ∧
        ((0 < (calculate_attractive_force s + fr).norm →
            s'.pos = clipVec (s.pos +
              (s.step_size / (calculate_attractive_force s + fr).norm) •
                (calculate_attractive_force s + fr))) ∧
         ((calculate_attractive_force s + fr).norm = 0 → s'.pos = clipVec s.pos))) ∧
    (s.escape_timer = 0 →
      (s.enable_escape = true ∧
          ((calculate_attractive_force s + fr).norm < 10 ∧ (s.pos - s.goal).norm > 1) ∧
          10 < s.stuck_counter + 1) →
      ∃ s', step a s = some s' ∧ s'.escape_timer = 60 ∧
        ((0 < (escVec a + fr).norm →
            s'.pos = clipVec (s.pos +
              ((s.step_size * 1.5) / (escVec a + fr).norm) • (escVec a + fr))) ∧
         ((escVec a + fr).norm = 0 → s'.pos = clipVec s.pos))) := by
  refine ⟨?_, ?_, ?_⟩
  · intro ht
    rw [step_escape_mode a s fr hr ht hrep]
    refine ⟨_, rfl, rfl, ?_, ?_⟩
    · intro hn
      rw [applyPhase_pos]
      simp only [movePos]
      rw [if_pos hn]
      by_cases ht1 : 1 < s.escape_timer
      · rw [if_pos (by omega : 0 < s.escape_timer - 1), if_pos ht1]
      · rw [if_neg (by omega : ¬ 0 < s.escape_timer - 1), if_neg ht1]
    · intro hz
      rw [applyPhase_pos]
      simp only [movePos]
      rw [hz, if_neg (lt_irrefl 0)]
  · intro ht0 hntr
    rw [step_normal_mode a s fr hr ht0 hrep]
    obtain ⟨hf, htm⟩ := normalPhase_no_trigger_shape a s fr hntr
    refine ⟨_, rfl, ?_, ?_, ?_⟩
    · rw [applyPhase_timer, htm, ht0]
    · intro hn
      rw [applyPhase_pos]
      simp only [movePos, hf, htm, ht0]
      rw [if_pos hn, if_neg (by omega : ¬ (0:ℕ) > 0)]
    · intro hz
      rw [applyPhase_pos]
      simp only [movePos, hf]
      rw [hz, if_neg (lt_irrefl 0)]
  · intro ht0 htr
    rw [step_normal_mode a s fr hr ht0 hrep]
    obtain ⟨hen, hinc, hgt⟩ := htr
    have hsu := stuckUpdate_of_inc s _ hinc
    rw [normalPhase_of_trigger a s fr hen (by rw [hsu]; omega)]
    refine ⟨_, rfl, rfl, ?_, ?_⟩
    · intro hn
      rw [applyPhase_pos]
      simp only [movePos]
      rw [if_pos hn, if_pos (by omega : (60:ℕ) > 0)]
    · intro hz
      rw [applyPhase_pos]
      simp only [movePos]
      rw [hz, if_neg (lt_irrefl 0)]

theorem C4_movement_law_witness :
    midEscapeState.is_reached = false ∧
    calculate_repulsive_force midEscapeState = some ⟨0, 0⟩ ∧
    0 < midEscapeState.escape_timer ∧
    (∃ s', step 0 midEscapeState = some s' ∧
      s'.escape_timer = midEscapeState.escape_timer - 1 ∧
      ((0 < (midEscapeState.escape_force + ⟨0, 0⟩).norm →
          s'.pos = clipVec (midEscapeState.pos +
            ((if 1 < midEscapeState.escape_timer then midEscapeState.step_size * 1.5
              else midEscapeState.step_size) /
                (midEscapeState.escape_force + ⟨0, 0⟩).norm) •
              (midEscapeState.escape_force + ⟨0, 0⟩))) ∧
       ((midEscapeState.escape_force + ⟨0, 0⟩).norm = 0 →
          s'.pos = clipVec midEscapeState.pos))) :=
  ⟨rfl, rfl, by norm_num [midEscapeState],
    (C4_movement_law 0 midEscapeState ⟨0, 0⟩ rfl rfl).1 (by norm_num [midEscapeState])⟩

/-- C4 counterexample: on a tick taken in escape mode (the timer is 1, hence
positive, at the start of the tick) with total force of norm 1, the position
advances by exactly the plain step size 0.1, not by any boosted multiple
with factor between 1.2 and 1.5 as the claim requires for every escape-mode
tick. -/
theorem C4_counterexample :
    0 < lastEscapeState.escape_timer ∧
    (step 0 lastEscapeState).map APF_Robot.pos = some ⟨0.1, 0⟩ ∧
    ¬ ∃ b : ℝ, 1.2 ≤ b ∧ b ≤ 1.5 ∧
      (⟨0.1, 0⟩ : Vec2) = lastEscapeState.pos +
        ((b * lastEscapeState.step_size) /
            (lastEscapeState.escape_force + ⟨0, 0⟩).norm) •
          (lastEscapeState.escape_force + ⟨0, 0⟩) := by
  have hft : lastEscapeState.escape_force + (⟨0, 0⟩ : Vec2) = ⟨1, 0⟩ := by
    ext <;> norm_num [lastEscapeState]
  have hnorm : (⟨1, 0⟩ : Vec2).norm = 1 := by
    rw [Vec2.norm]
    norm_num
  have htm : lastEscapeState.escape_timer - 1 = 0 := rfl
  refine ⟨by norm_num [lastEscapeState], ?_, ?_⟩
  · rw [step_escape_mode 0 lastEscapeState ⟨0, 0⟩ rfl (by norm_num [lastEscapeState]) rfl,
      Option.map_some']
    have hmv : movePos lastEscapeState
        ⟨lastEscapeState.escape_force + ⟨0, 0⟩, lastEscapeState.stuck_counter,
          lastEscapeState.escape_timer - 1, lastEscapeState.escape_force⟩ = ⟨0.1, 0⟩ := by
      simp only [movePos, hft, hnorm, htm]
      rw [if_pos (by norm_num : (1:ℝ) > 0), if_neg (by omega : ¬ (0:ℕ) > 0)]
      ext <;> norm_num [lastEscapeState]
    rw [applyPhase_pos, hmv]
    rw [clipVec, clip_id _ _ _ (by norm_num) (by norm_num),
      clip_id _ _ _ (by norm_num) (by norm_num)]
  · rintro ⟨b, hb1, hb2, he⟩
    rw [hft, hnorm] at he
    have hx := congrArg Vec2.x he
    norm_num [lastEscapeState] at hx
    nlinarith [hx]

/-- C7 amended: on an unreached normal-mode tick with every obstacle strictly
outside the influence radius, a positive attractive gain and step size, a
position distinct from the goal, no escape trigger firing on the tick, and a
target point inside the world box, the position moves exactly stepSize toward
the goal along the straight line from position to goal. -/
theorem C7_pure_attractive_motion (a : ℝ) (s : APF_Robot)
    (hr : s.is_reached = false) (ht : s.escape_timer = 0)
    (hfar : ∀ ob ∈ s.obstacles, s.rr < (s.pos - ⟨ob.ox, ob.oy⟩).norm)
    (hk : 0 < s.k_att) (hne : s.pos ≠ s.goal) (hss : 0 < s.step_size)
    (hntr : ¬ (s.enable_escape = true ∧
        ((calculate_attractive_force s + ⟨0, 0⟩).norm < 10 ∧ (s.pos - s.goal).norm > 1) ∧
        10 < s.stuck_counter + 1))
    (hbox : inBox (s.pos + (s.step_size / (s.goal - s.pos).norm) • (s.goal - s.pos))) :
    ∃ s', step a s = some s' ∧
      s'.pos = s.pos + (s.step_size / (s.goal - s.pos).norm) • (s.goal - s.pos) ∧
      (s'.pos - s.pos).norm = s.step_size := by
  have hrep : calculate_repulsive_force s = some ⟨0, 0⟩ :=
    rep_fold_far s s.obstacles ⟨0, 0⟩ hfar
  have hk' : s.k_att ≠ 0 := ne_of_gt hk
  have hdne : s.goal - s.pos ≠ ⟨0, 0⟩ := by
    intro hd
    apply hne
    have hx := congrArg Vec2.x hd
    have hy := congrArg Vec2.y hd
    simp only [Vec2.sub_x, Vec2.sub_y] at hx hy
    ext
    · linarith
    · linarith
  have hdn : 0 < (s.goal - s.pos).norm := Vec2.norm_pos _ hdne
  have hdn' : (s.goal - s.pos).norm ≠ 0 := ne_of_gt hdn
  have hatt : calculate_attractive_force s + (⟨0, 0⟩ : Vec2)
      = s.k_att • (s.goal - s.pos) := by
    ext <;> simp [calculate_attractive_force] <;> ring
  have hattnorm : (calculate_attractive_force s + (⟨0, 0⟩ : Vec2)).norm
      = s.k_att * (s.goal - s.pos).norm := by
    rw [hatt, Vec2.norm_smul, abs_of_pos hk]
  have hnpos : 0 < (calculate_attractive_force s + (⟨0, 0⟩ : Vec2)).norm := by
    rw [hattnorm]
    exact mul_pos hk hdn
  rw [step_normal_mode a s ⟨0, 0⟩ hr ht hrep]
  obtain ⟨hf, htm⟩ := normalPhase_no_trigger_shape a s ⟨0, 0⟩ hntr
  have hsc : ∀ c : ℝ, s.step_size / (s.k_att * (s.goal - s.pos).norm) * (s.k_att * c)
      = s.step_size / (s.goal - s.pos).norm * c := by
    intro c
    field_simp
    ring
  have hpos : (applyPhase s (normalPhase a s ⟨0, 0⟩)).pos
      = s.pos + (s.step_size / (s.goal - s.pos).norm) • (s.goal - s.pos) := by
    rw [applyPhase_pos]
    simp only [movePos, hf, htm, ht]
    rw [if_pos hnpos, if_neg (by omega : ¬ (0:ℕ) > 0)]
    have harg : s.pos + (s.step_size / (calculate_attractive_force s + (⟨0, 0⟩ : Vec2)).norm) •
        (calculate_attractive_force s + (⟨0, 0⟩ : Vec2))
        = s.pos + (s.step_size / (s.goal - s.pos).norm) • (s.goal - s.pos) := by
      rw [hattnorm, hatt]
      ext
      · simp only [Vec2.add_x, Vec2.smul_x]
        rw [hsc]
      · simp only [Vec2.add_y, Vec2.smul_y]
        rw [hsc]
    rw [harg, clipVec_of_inBox _ hbox]
  refine ⟨_, rfl, hpos, ?_⟩
  rw [hpos]
  have hdisp : (s.pos + (s.step_size / (s.goal - s.pos).norm) • (s.goal - s.pos)) - s.pos
      = (s.step_size / (s.goal - s.pos).norm) • (s.goal - s.pos) := by
    ext <;> simp
  rw [hdisp, Vec2.norm_smul, abs_of_pos (div_pos hss hdn), div_mul_cancel₀ _ hdn']

theorem C7_pure_attractive_motion_witness :
    plainState.is_reached = false ∧ plainState.escape_timer = 0 ∧
    (∀ ob ∈ plainState.obstacles,
      plainState.rr < (plainState.pos - ⟨ob.ox, ob.oy⟩).norm) ∧
    0 < plainState.k_att ∧ plainState.pos ≠ plainState.goal ∧
    0 < plainState.step_size ∧
    ∃ s', step 0 plainState = some s' ∧
      s'.pos = plainState.pos +
        (plainState.step_size / (plainState.goal - plainState.pos).norm) •
          (plainState.goal - plainState.pos) ∧
      (s'.pos - plainState.pos).norm = plainState.step_size := by
  have hfar : ∀ ob ∈ plainState.obstacles,
      plainState.rr < (plainState.pos - ⟨ob.ox, ob.oy⟩).norm := by
    intro ob hob
    simp [plainState, APF_Robot.init] at hob
  have hk : 0 < plainState.k_att := by norm_num [plainState, APF_Robot.init]
  have hne : plainState.pos ≠ plainState.goal := by
    intro h
    have hx := congrArg Vec2.x h
    norm_num [plainState, APF_Robot.init] at hx
  have hss : 0 < plainState.step_size := by norm_num [plainState, APF_Robot.init]
  have hntr : ¬ (plainState.enable_escape = true ∧
      ((calculate_attractive_force plainState + ⟨0, 0⟩).norm < 10 ∧
        (plainState.pos - plainState.goal).norm > 1) ∧
      10 < plainState.stuck_counter + 1) := by
    rintro ⟨hen, -⟩
    simp [plainState, APF_Robot.init] at hen
  have hbox : inBox (plainState.pos +
      (plainState.step_size / (plainState.goal - plainState.pos).norm) •
        (plainState.goal - plainState.pos)) := by
    norm_num [inBox, plainState, APF_Robot.init, Vec2.norm]
  exact ⟨rfl, rfl, hfar, hk, hne, hss,
    C7_pure_attractive_motion 0 plainState rfl rfl hfar hk hne hss hntr hbox⟩

/-- C7 counterexample: a normal-mode tick on which the agent is unreached,
every obstacle is strictly outside the influence radius, and yet the position
does not move stepSize toward the goal: the deadlock trigger fires on this
very tick (stuck counter 10, small total force, distant goal) and the motion
follows the injected escape force instead. -/
theorem C7_counterexample :
    (∀ ob ∈ triggerFarState.obstacles,
      triggerFarState.rr < (triggerFarState.pos - ⟨ob.ox, ob.oy⟩).norm) ∧
    triggerFarState.is_reached = false ∧
    triggerFarState.escape_timer = 0 ∧
    triggerFarState.pos + (triggerFarState.step_size /
        (triggerFarState.goal - triggerFarState.pos).norm) •
      (triggerFarState.goal - triggerFarState.pos) = ⟨0.1, 0⟩ ∧
    (step (Real.pi / 2) triggerFarState).map APF_Robot.pos = some ⟨0, 0.15⟩ ∧
    (⟨0, 0.15⟩ : Vec2) ≠ ⟨0.1, 0⟩ := by
  have hfar : ∀ ob ∈ triggerFarState.obstacles,
      triggerFarState.rr < (triggerFarState.pos - ⟨ob.ox, ob.oy⟩).norm := by
    intro ob hob
    simp [triggerFarState] at hob
  have hd2 : (triggerFarState.goal - triggerFarState.pos).norm = 2 := by
    rw [show triggerFarState.goal - triggerFarState.pos = (⟨2, 0⟩ : Vec2) by
      ext <;> norm_num [triggerFarState]]
    rw [Vec2.norm]
    exact sqrt_of_sq _ 2 (by norm_num) (by norm_num)
  have h4 : triggerFarState.pos + (triggerFarState.step_size /
      (triggerFarState.goal - triggerFarState.pos).norm) •
        (triggerFarState.goal - triggerFarState.pos) = ⟨0.1, 0⟩ := by
    ext
    · simp only [Vec2.add_x, Vec2.smul_x, Vec2.sub_x]
      rw [hd2]
      norm_num [triggerFarState]
    · simp only [Vec2.add_y, Vec2.smul_y, Vec2.sub_y]
      rw [hd2]
      norm_num [triggerFarState]
  have hrep : calculate_repulsive_force triggerFarState = some ⟨0, 0⟩ := rfl
  have hatt : calculate_attractive_force triggerFarState + (⟨0, 0⟩ : Vec2) = ⟨4, 0⟩ := by
    ext <;> norm_num [calculate_attractive_force, triggerFarState]
  have hattn : (calculate_attractive_force triggerFarState + (⟨0, 0⟩ : Vec2)).norm = 4 := by
    rw [hatt, Vec2.norm]
    exact sqrt_of_sq _ 4 (by norm_num) (by norm_num)
  have hgd : (triggerFarState.pos - triggerFarState.goal).norm = 2 := by
    rw [show triggerFarState.pos - triggerFarState.goal = (⟨-2, 0⟩ : Vec2) by
      ext <;> norm_num [triggerFarState]]
    rw [Vec2.norm]
    exact sqrt_of_sq _ 2 (by norm_num) (by norm_num)
  have hinc : (calculate_attractive_force triggerFarState + (⟨0, 0⟩ : Vec2)).norm < 10 ∧
      (triggerFarState.pos - triggerFarState.goal).norm > 1 := by
    rw [hattn, hgd]
    norm_num
  have hsu := stuckUpdate_of_inc triggerFarState _ hinc
  have hesc : escVec (Real.pi / 2) = ⟨0, 150⟩ := by
    ext
    · simp [escVec, Real.cos_pi_div_two]
    · simp [escVec, Real.sin_pi_div_two]
  have hft : escVec (Real.pi / 2) + (⟨0, 0⟩ : Vec2) = ⟨0, 150⟩ := by
    rw [hesc]
    ext <;> simp
  have hftn : ((⟨0, 150⟩ : Vec2)).norm = 150 := by
    rw [Vec2.norm]
    exact sqrt_of_sq _ 150 (by norm_num) (by norm_num)
  refine ⟨hfar, rfl, rfl, h4, ?_, ?_⟩
  · rw [step_normal_mode (Real.pi / 2) triggerFarState ⟨0, 0⟩ rfl rfl hrep]
    rw [normalPhase_of_trigger (Real.pi / 2) triggerFarState ⟨0, 0⟩ rfl
      (by rw [hsu]; norm_num [triggerFarState])]
    rw [Option.map_some']
    have hmv : movePos triggerFarState
        ⟨escVec (Real.pi / 2) + ⟨0, 0⟩, 0, 60, escVec (Real.pi / 2)⟩ = ⟨0, 0.15⟩ := by
      simp only [movePos, hft, hftn]
      rw [if_pos (by norm_num : (150:ℝ) > 0), if_pos (by omega : (60:ℕ) > 0)]
      ext <;> norm_num [triggerFarState]
    rw [applyPhase_pos, hmv, clipVec, clip_id _ _ _ (by norm_num) (by norm_num),
      clip_id _ _ _ (by norm_num) (by norm_num)]
  · intro h
    have hx := congrArg Vec2.x h
    norm_num at hx
